import Mathlib

/-!
Verification of the behavior-selection and response-delivery engine of the
`test-server` HTTP simulator (a Go program).  The Go sources are embedded
shallowly: machine `int`s become `Int`, slices become `List`, the per-process
session map becomes an association list, and the delivery loop becomes a
fuel-indexed recursive function producing the ordered list of I/O events
(writes, flushes, sleeps, forced close) that the handler performs.

The repository contains two revisions of the same single-file program
(`src/main.go` and `src/unnamed/part_000`); they differ only in the parsing
of the `cutOffs` field, in one error message, and in the presence of a usage
text.  Where they differ, both variants are embedded and the divergence is
proved.
-/

namespace TestServer

/-- The `params` struct (src/main.go:17-27, src/unnamed/part_000:17-27).
Durations (`time.Duration`) are nanosecond counts, embedded as `Int`.
`bytesPerSec *int` is embedded as `Option Int`. -/
structure Params where
  id : String := ""
  randomDelay : List Int := []
  delays : List Int := []
  codes : List Int := []
  cutOffs : List Int := []
  size : Int := 0
  bytesPerSec : Option Int := none
  isBinary : Bool := false
  sessionCount : Nat := 0
deriving DecidableEq

/-- The query string as the handler reads it through `url.Values`: the code
only ever calls `q.Get(key)` (which yields `""` for an absent key) and
`q.Has("bin")`, so a query is faithfully captured by one string per key plus
the `bin` presence flag. -/
structure Query where
  delay : String := ""
  size : String := ""
  bps : String := ""
  cutOffs : String := ""
  codes : String := ""
  id : String := ""
  bin : Bool := false
deriving DecidableEq

/-- The process-wide `sessions` map (src/main.go:49), embedded as an
association list; a fresh binding is consed on update, and lookup takes the
first match (Go map semantics: one binding per key). -/
def Sessions : Type := List (String × Nat)

/-- Go map read `sessions[id]`: the zero value `0` when the key is unseen. -/
def getSession (m : Sessions) (k : String) : Nat :=
  match m with
  | [] => 0
  | (k', v) :: rest => if k' = k then v else getSession rest k

/-- `updateSession` (src/main.go:52-57): read the current counter, store
`counter+1` back, and record the pre-increment value as this request's
`sessionCount`.  Returns the pre-increment value and the updated registry. -/
def updateSession (m : Sessions) (k : String) : Nat × Sessions :=
  (getSession m k, (k, getSession m k + 1) :: m)

/-- `(p *params) statusCode()` (src/main.go:82-91). -/
def statusCode (p : Params) : Int :=
  if p.codes.length > 0 then
    let code := p.codes.getD (p.codes.length - 1) 0
    if p.codes.length > p.sessionCount then p.codes.getD p.sessionCount 0 else code
  else 200

/-- `(p *params) cutOff()` (src/main.go:93-102): `-1` is the
"no truncation" sentinel. -/
def cutOffSel (p : Params) : Int :=
  if p.cutOffs.length > 0 then
    let c := p.cutOffs.getD (p.cutOffs.length - 1) 0
    if p.cutOffs.length > p.sessionCount then p.cutOffs.getD p.sessionCount 0 else c
  else -1

/-- `(p *params) delayDuration()` (src/main.go:59-72), in nanoseconds.
The first branch (`len(p.randomDelay) == 2`) draws `mr.Int64N` over the
millisecond range; it is embedded as `0` because it is unreachable: no value
produced by `parseParams` ever has `randomDelay` of length 2 (the store into
the nil `randomDelay` slice panics first; see
`parseParams_ok_randomDelay_nil` and claim C4). -/
def delayDuration (p : Params) : Int :=
  if p.randomDelay.length = 2 then
    0
  else if p.delays.length > 1 then
    let idx := if p.delays.length ≤ p.sessionCount then p.delays.length - 1 else p.sessionCount
    p.delays.getD idx 0
  else if p.delays.length = 1 then
    p.delays.getD 0 0
  else 0

/-- `letterRunes` (src/main.go:29): note the trailing `0` of `01234567890` —
the digit `0` occurs twice, giving 65 entries. -/
def letterRunes : List Char :=
  "abcdefghijklmnopqrstuvwxyzABCDEFGHIJKLMNOPQRSTUVWXYZ01234567890 \n".data

/-- `randString` (src/main.go:31-37).  Each call to `mr.IntN(len(letterRunes))`
is modelled by one value of the oracle stream `r`; `% letterRunes.length`
encodes `IntN`'s contract that the result is in `[0, n)`. -/
def randString (r : Nat → Nat) (n : Nat) : List Char :=
  (List.range n).map fun i => letterRunes.getD (r i % letterRunes.length) ' '

/-- The alphabet named by the spec: `a-z`, `A-Z`, `0-9`, space, newline. -/
def inAlphabet (c : Char) : Bool :=
  ('a' ≤ c && c ≤ 'z') || ('A' ≤ c && c ≤ 'Z') || ('0' ≤ c && c ≤ '9')
    || c = ' ' || c = '\n'

/-! ### String helpers

`strings.Split` (with the one-character separators `-` and `,` used by the
source) and `strings.TrimSpace`, embedded as structural recursion on the
character list so that they compute inside the kernel.  `splitOnChar` agrees
with `strings.Split`: splitting the empty string yields `[""]`, and `k`
separators yield `k+1` (possibly empty) fields. -/

/-- `strings.Split s sep` for a one-character separator. -/
def splitOnChar (sep : Char) : List Char → List (List Char)
  | [] => [[]]
  | x :: xs =>
    if x = sep then [] :: splitOnChar sep xs
    else
      match splitOnChar sep xs with
      | [] => [[x]]
      | t :: ts => (x :: t) :: ts

/-- `strings.TrimSpace` (ASCII whitespace; the Unicode space classes of the
library version are irrelevant to the claims). -/
def goTrim (s : List Char) : List Char :=
  ((s.dropWhile Char.isWhitespace).reverse.dropWhile Char.isWhitespace).reverse

/-! ### strconv.Atoi -/

/-- Decimal value of a non-empty all-digit character list, `none` otherwise. -/
def digitsVal (ds : List Char) : Option Nat :=
  match ds with
  | [] => none
  | ds =>
    if ds.all Char.isDigit then
      some (ds.foldl (fun a c => a * 10 + (c.toNat - 48)) 0)
    else none

/-- `strconv.Atoi` (base-10 `ParseInt` into a 64-bit `int`): optional single
sign, then decimal digits only; any other character, an empty digit string,
or a value outside `[-2^63, 2^63-1]` is an error (`none`). -/
def atoi (s : String) : Option Int :=
  match s.data with
  | [] => none
  | c :: cs =>
    if c = '-' then
      match digitsVal cs with
      | none => none
      | some n => if n ≤ 2 ^ 63 then some (-(n : Int)) else none
    else if c = '+' then
      match digitsVal cs with
      | none => none
      | some n => if n ≤ 2 ^ 63 - 1 then some (n : Int) else none
    else
      match digitsVal (c :: cs) with
      | none => none
      | some n => if n ≤ 2 ^ 63 - 1 then some (n : Int) else none

/-! ### time.ParseDuration

The handler parses `delay` tokens with `time.ParseDuration`.  The model below
follows the library function: `[-+]?([0-9]*(\.[0-9]*)?[a-z]+)+` with units
ns/us/µs/μs/ms/s/m/h, the special case `"0"`, and the `2^63` overflow
guards.  The one deliberate simplification: the fractional contribution,
computed in the library with `float64` arithmetic, is computed here as
`f * unit / scale` in exact integer arithmetic. -/

/-- Consume leading decimal digits, accumulating into `x`
(`time.leadingInt`); `none` on overflow past `2^63`. -/
def leadingInt : Nat → List Char → Option (Nat × List Char)
  | x, [] => some (x, [])
  | x, c :: cs =>
    if c.isDigit then
      if x > 2 ^ 63 / 10 then none
      else
        let x2 := x * 10 + (c.toNat - 48)
        if x2 > 2 ^ 63 then none else leadingInt x2 cs
    else some (x, c :: cs)

/-- Consume the digits of a fraction (`time.leadingFraction`): value,
scale, rest.  Once the value would overflow, digits are still consumed but
no longer accumulated. -/
def leadingFraction : Nat → Nat → Bool → List Char → Nat × Nat × List Char
  | y, scale, _, [] => (y, scale, [])
  | y, scale, ov, c :: cs =>
    if c.isDigit then
      if ov then leadingFraction y scale ov cs
      else if y > 2 ^ 63 / 10 then leadingFraction y scale true cs
      else
        let y2 := y * 10 + (c.toNat - 48)
        if y2 > 2 ^ 63 then leadingFraction y scale true cs
        else leadingFraction y2 (scale * 10) false cs
    else (y, scale, c :: cs)

/-- The unit substring: the maximal prefix free of digits and `.`. -/
def takeUnit : List Char → List Char × List Char
  | [] => ([], [])
  | c :: cs =>
    if c = '.' ∨ c.isDigit then ([], c :: cs)
    else
      let (u, r) := takeUnit cs
      (c :: u, r)

/-- `time.unitMap`: nanoseconds per unit. -/
def unitVal (u : String) : Option Nat :=
  if u = "ns" then some 1
  else if u = "us" then some 1000
  else if u = "µs" then some 1000
  else if u = "μs" then some 1000
  else if u = "ms" then some 1000000
  else if u = "s" then some 1000000000
  else if u = "m" then some 60000000000
  else if u = "h" then some 3600000000000
  else none

/-- The component loop of `ParseDuration`: repeatedly read
`digits[.digits]unit` and accumulate nanoseconds into `d`.  Every iteration
consumes at least one character, so fuel `length + 1` never runs out. -/
def durParts : Nat → Nat → List Char → Option Nat
  | _, d, [] => some d
  | 0, _, _ :: _ => none
  | fuel + 1, d, c :: cs =>
    if ¬(c = '.' ∨ c.isDigit) then none
    else
      match leadingInt 0 (c :: cs) with
      | none => none
      | some (v, s1) =>
        let pre := s1.length ≠ (c :: cs).length
        let fps :=
          match s1 with
          | '.' :: r =>
            let (y, sc, r2) := leadingFraction 0 1 false r
            (y, sc, r2, decide (r2.length ≠ r.length))
          | _ => (0, 1, s1, false)
        if ¬pre ∧ fps.2.2.2 = false then none
        else
          let (u, s3) := takeUnit fps.2.2.1
          if u = [] then none
          else
            match unitVal (String.mk u) with
            | none => none
            | some unit =>
              if v > 2 ^ 63 / unit then none
              else
                let v2 := v * unit + fps.1 * unit / fps.2.1
                if v2 > 2 ^ 63 then none
                else
                  let d2 := d + v2
                  if d2 > 2 ^ 63 then none
                  else durParts fuel d2 s3

/-- `time.ParseDuration`, returning nanoseconds. -/
def parseDuration (s : String) : Option Int :=
  let (neg, t) :=
    match s.data with
    | '-' :: r => (true, r)
    | '+' :: r => (false, r)
    | r => (false, r)
  if t = ['0'] then some 0
  else if t = [] then none
  else
    match durParts (t.length + 1) 0 t with
    | none => none
    | some d =>
      if neg then
        if d > 2 ^ 63 then none else some (-(d : Int))
      else
        if d > 2 ^ 63 - 1 then none else some (d : Int)

/-! ### parseParams -/

/-- The structured parse failures of `parseParams`, each carrying the
offending value exactly as the `fmt.Errorf` calls quote it. -/
inductive ParseErr
  | badDuration (tok : String)
  | sizeMissing
  | badSize (s : String)
  | badBps (s : String)
  | badCutOffs (s : String)
  | badCodes (s : String)
deriving DecidableEq

/-- The error messages of `parseParams` (src/unnamed/part_000:124-218).  Go's
`%q` quoting is modelled as plain double-quoting, and the text of the wrapped
(`%w`) strconv/time error is elided. -/
def renderErr : ParseErr → String
  | .badDuration t => "can\x27t parse duration \"" ++ t ++ "\""
  | .sizeMissing => "required \"size\" parameter is missing"
  | .badSize s => "can\x27t parse size \"" ++ s ++ "\""
  | .badBps s => "can\x27t parse bytes per second \"" ++ s ++ "\""
  | .badCutOffs s => "can\x27t parse cut-offs \"" ++ s ++ "\""
  | .badCodes s => "can\x27t parse status codes \"" ++ s ++ "\""

/-- Result of the `delay` block: the parsed `(randomDelay, delays)` lists, a
parse error, or a runtime panic. -/
inductive DelayRes
  | ok (rd ds : List Int)
  | err (e : ParseErr)
  | panic
deriving DecidableEq

/-- Parse every `delay` token of the sequence branch with
`time.ParseDuration`; the first failing token aborts. -/
def parseDurList : List (List Char) → Except ParseErr (List Int)
  | [] => .ok []
  | t :: ts =>
    match parseDuration (String.mk t) with
    | none => .error (.badDuration (String.mk t))
    | some d =>
      match parseDurList ts with
      | .error e => .error e
      | .ok ds => .ok (d :: ds)

/-- The `delay` block (src/main.go:106-140).  When the value splits on `-`
into exactly two parts and the first parses, the source executes
`params.randomDelay[0] = delay` — a store into index 0 of the nil slice
`randomDelay`, which panics with "index out of range"; the second part is
never reached.  Otherwise the value is split on `,` and every token is
parsed as a duration. -/
def parseDelayField (sd : String) : DelayRes :=
  if sd.data = [] then .ok [] []
  else if (splitOnChar '-' sd.data).length = 2 then
    match parseDuration (String.mk ((splitOnChar '-' sd.data).getD 0 [])) with
    | none => .err (.badDuration (String.mk ((splitOnChar '-' sd.data).getD 0 [])))
    | some _ => .panic
  else
    match parseDurList (splitOnChar ',' sd.data) with
    | .error e => .err e
    | .ok ds => .ok [] ds

/-- The `size` block (src/main.go:141-152): required, `strconv.Atoi`. -/
def parseSizeField (s : String) : Except ParseErr Int :=
  if s.data = [] then .error .sizeMissing
  else
    match atoi s with
    | none => .error (.badSize s)
    | some v => .ok v

/-- The `bps` block (src/main.go:153-162): optional, `strconv.Atoi`. -/
def parseBpsField (s : String) : Except ParseErr (Option Int) :=
  if s.data = [] then .ok none
  else
    match atoi s with
    | none => .error (.badBps s)
    | some v => .ok (some v)

/-- Token loop of the `cutOffs` block of src/unnamed/part_000:183-199: each
token is trimmed; an empty token contributes the sentinel `-1`, a non-empty
token must parse with `strconv.Atoi`. -/
def cutOffTokens (orig : String) : List (List Char) → Except ParseErr (List Int)
  | [] => .ok []
  | t :: ts =>
    let s := goTrim t
    if s = [] then
      match cutOffTokens orig ts with
      | .error e => .error e
      | .ok l => .ok (-1 :: l)
    else
      match atoi (String.mk s) with
      | none => .error (.badCutOffs orig)
      | some v =>
        match cutOffTokens orig ts with
        | .error e => .error e
        | .ok l => .ok (v :: l)

/-- The `cutOffs` block of src/unnamed/part_000:183-199 (guarded on a
non-empty value; empty tokens map to `-1`). -/
def parseCutOffsField (s : String) : Except ParseErr (List Int) :=
  if s.data = [] then .ok []
  else cutOffTokens s (splitOnChar ',' s.data)

/-- Token loop of the `cutOffs` block of src/main.go:163-175: empty tokens
are *skipped* (no sentinel is appended), and the error message of this
revision reads "can't parse status codes". -/
def cutOffTokensMain (orig : String) : List (List Char) → Except ParseErr (List Int)
  | [] => .ok []
  | t :: ts =>
    let s := goTrim t
    if s = [] then cutOffTokensMain orig ts
    else
      match atoi (String.mk s) with
      | none => .error (.badCodes orig)
      | some v =>
        match cutOffTokensMain orig ts with
        | .error e => .error e
        | .ok l => .ok (v :: l)

/-- The `cutOffs` block of src/main.go:163-175 (no emptiness guard on the
value; empty tokens are skipped). -/
def cutOffsFieldMain (s : String) : Except ParseErr (List Int) :=
  cutOffTokensMain s (splitOnChar ',' s.data)

/-- Token loop of the `codes` block (src/main.go:176-190): empty tokens are
skipped, non-empty tokens must parse with `strconv.Atoi`. -/
def codeTokens (orig : String) : List (List Char) → Except ParseErr (List Int)
  | [] => .ok []
  | t :: ts =>
    let s := goTrim t
    if s = [] then codeTokens orig ts
    else
      match atoi (String.mk s) with
      | none => .error (.badCodes orig)
      | some v =>
        match codeTokens orig ts with
        | .error e => .error e
        | .ok l => .ok (v :: l)

/-- The `codes` block (src/main.go:176-190). -/
def parseCodesField (s : String) : Except ParseErr (List Int) :=
  if s.data = [] then .ok []
  else codeTokens s (splitOnChar ',' s.data)

/-- Outcome of `parseParams`: a descriptor, an error, or a runtime panic. -/
inductive ParseOutcome
  | ok (p : Params)
  | err (e : ParseErr)
  | panic
deriving DecidableEq

/-- `parseParams` (src/unnamed/part_000:124-218; identical to
src/main.go:104-194 except for the `cutOffs` block, for which this embedding
follows part_000 — the main.go variant is `cutOffsFieldMain`).  Fields are
processed in source order: `delay`, `size`, `bps`, `cutOffs`, `codes`,
`bin`, `id`; the first failure aborts. -/
def parseParams (q : Query) : ParseOutcome :=
  match parseDelayField q.delay with
  | .panic => .panic
  | .err e => .err e
  | .ok rd ds =>
    match parseSizeField q.size with
    | .error e => .err e
    | .ok size =>
      match parseBpsField q.bps with
      | .error e => .err e
      | .ok bps =>
        match parseCutOffsField q.cutOffs with
        | .error e => .err e
        | .ok cos =>
          match parseCodesField q.codes with
          | .error e => .err e
          | .ok cds =>
            .ok { id := q.id, randomDelay := rd, delays := ds, codes := cds,
                  cutOffs := cos, size := size, bytesPerSec := bps,
                  isBinary := q.bin, sessionCount := 0 }

/-! ### The delivery loop -/

/-- One I/O action of the handler, in order: a sleep (nanoseconds), a chunk
write of so many bytes, a flush, or the forced close of the hijacked
connection. -/
inductive Ev
  | sleep (ns : Int)
  | write (n : Int)
  | flush
  | hijackClose
deriving DecidableEq, Repr

/-- The chunk size of one loop iteration (src/main.go:240-250): start from
`len(data)`, lower it to `toSend` if less, and, when truncation is active
(`cutOff >= 0`), lower it to `cutOff` if less. -/
def stepSize (dataLen toSend cutOff : Int) : Int :=
  let s := if toSend < dataLen then toSend else dataLen
  if 0 ≤ cutOff then (if cutOff < s then cutOff else s) else s

/-- The truncation allowance after one iteration (src/main.go:245-250):
`cutOff -= size` when truncation is active, unchanged otherwise. -/
def nextCut (cutOff size : Int) : Int :=
  if 0 ≤ cutOff then cutOff - size else cutOff

/-- The delivery loop `for toSend > 0 { ... }` (src/main.go:240-262),
emitting its I/O events in order.  Each iteration writes `stepSize` bytes;
if bytes remain it flushes, then either force-closes the connection (when
the allowance has reached exactly 0) or sleeps one second.  `fuel` bounds
the number of iterations; `none` means the bound was hit (the source loop
does not terminate when `len(data) = 0`, `toSend > 0` and `cutOff > 0`). -/
def deliverLoop : Nat → Int → Int → Int → Option (List Ev)
  | 0, _, _, _ => none
  | fuel + 1, dataLen, toSend, cutOff =>
    if toSend ≤ 0 then some []
    else
      let size := stepSize dataLen toSend cutOff
      if toSend - size ≤ 0 then some [Ev.write size]
      else if nextCut cutOff size = 0 then
        some [Ev.write size, Ev.flush, Ev.hijackClose]
      else
        match deliverLoop fuel dataLen (toSend - size) (nextCut cutOff size) with
        | none => none
        | some evs => some (Ev.write size :: Ev.flush :: Ev.sleep 1000000000 :: evs)

/-- Total number of payload bytes written by a run of the loop. -/
def writtenBytes : List Ev → Int
  | [] => 0
  | Ev.write n :: rest => n + writtenBytes rest
  | _ :: rest => writtenBytes rest

/-- Whether a run force-closed the connection. -/
def closedEarly : List Ev → Bool
  | [] => false
  | Ev.hijackClose :: _ => true
  | _ :: rest => closedEarly rest

/-- Number of chunk writes in a run. -/
def writeCount : List Ev → Nat
  | [] => 0
  | Ev.write _ :: rest => writeCount rest + 1
  | _ :: rest => writeCount rest

/-- Number of one-second pacing sleeps in a run. -/
def sleepCount : List Ev → Nat
  | [] => 0
  | Ev.sleep _ :: rest => sleepCount rest + 1
  | _ :: rest => sleepCount rest

/-- Every write event of the run is of at most `b` bytes. -/
def writesLe (b : Int) : List Ev → Bool
  | [] => true
  | Ev.write n :: rest => decide (n ≤ b) && writesLe b rest
  | _ :: rest => writesLe b rest

/-- The behaviour the C1 claim ascribes to the loop on a payload of `n`
bytes, chunk buffer of `dataLen` bytes and truncation allowance `c`: the
loop finishes, writes exactly `min n c` bytes in total, and force-closes
the connection iff `c < n`. -/
def deliversMin (dataLen n c : Int) : Prop :=
  ∃ fuel evs, deliverLoop fuel dataLen n c = some evs ∧
    writtenBytes evs = min n c ∧ (closedEarly evs = true ↔ c < n)

/-- `ceil(n / b)` on naturals. -/
def chunksOf (n b : Nat) : Nat := (n + b - 1) / b

/-! ### The response writer

A model of the `net/http.ResponseWriter` the handler drives.  The header
map can be mutated at any time, but per the `net/http` contract ("changing
the header map after a call to `WriteHeader` (or `Write`) has no effect"),
the headers actually transmitted are the contents of the map at the moment
`WriteHeader` is first called; `sent` records that snapshot. -/
structure Writer where
  headerMap : List (String × String)
  status : Option Int
  sent : List (String × String)
deriving DecidableEq

/-- A fresh writer: empty header map, no status written yet. -/
def Writer.start : Writer := ⟨[], none, []⟩

/-- `w.Header().Add(k, v)`: appends to the header map (transmitted only if
`WriteHeader` has not yet run). -/
def headerAdd (k v : String) (w : Writer) : Writer :=
  { w with headerMap := w.headerMap ++ [(k, v)] }

/-- `Header().Set(k, v)`: replace any binding of `k`. -/
def headerSet (k v : String) (w : Writer) : Writer :=
  { w with headerMap := w.headerMap.filter (fun kv => kv.1 ≠ k) ++ [(k, v)] }

/-- `Header().Del(k)`. -/
def headerDel (k : String) (w : Writer) : Writer :=
  { w with headerMap := w.headerMap.filter (fun kv => kv.1 ≠ k) }

/-- `w.WriteHeader(code)` per `net/http.(*response).WriteHeader`: a second
call after a final status is a logged no-op; otherwise
`checkWriteHeaderCode` panics (`none` here) for a code outside `[100, 999]`;
an informational code in `100..199` other than `101 Switching Protocols` is
relayed immediately as an interim response and leaves the final status
unset; every other code becomes the final status, snapshotting the header
map as what the response transmits ("changing the header map after a call
to WriteHeader (or Write) has no effect"). -/
def writeHeader (code : Int) (w : Writer) : Option Writer :=
  match w.status with
  | some _ => some w
  | none =>
    if code < 100 ∨ 999 < code then none
    else if 100 ≤ code ∧ code ≤ 199 ∧ code ≠ 101 then some w
    else some { w with status := some code, sent := w.headerMap }

/-- `http.Error(w, msg, code)`: set the plain-text headers, write the
status, and send `msg` plus a newline as the body via `fmt.Fprintln` —
whose underlying `Write` performs the implicit `WriteHeader(200)` when no
final status has been written yet (the informational-1xx case; a no-op
otherwise).  `none` when `WriteHeader` panics: the body is then never
sent. -/
def httpError (msg : String) (code : Int) (w : Writer) : Option (Writer × String) :=
  let w := headerDel "Content-Length" w
  let w := headerSet "Content-Type" "text/plain; charset=utf-8" w
  let w := headerSet "X-Content-Type-Options" "nosniff" w
  match writeHeader code w with
  | none => none
  | some w2 =>
    match writeHeader 200 w2 with
    | none => none
    | some w3 => some (w3, msg ++ "\n")

/-- `http.StatusText`: the library's full table; unknown codes yield `""`. -/
def statusText (code : Int) : String :=
  if code = 100 then "Continue"
  else if code = 101 then "Switching Protocols"
  else if code = 102 then "Processing"
  else if code = 103 then "Early Hints"
  else if code = 200 then "OK"
  else if code = 201 then "Created"
  else if code = 202 then "Accepted"
  else if code = 203 then "Non-Authoritative Information"
  else if code = 204 then "No Content"
  else if code = 205 then "Reset Content"
  else if code = 206 then "Partial Content"
  else if code = 207 then "Multi-Status"
  else if code = 208 then "Already Reported"
  else if code = 226 then "IM Used"
  else if code = 300 then "Multiple Choices"
  else if code = 301 then "Moved Permanently"
  else if code = 302 then "Found"
  else if code = 303 then "See Other"
  else if code = 304 then "Not Modified"
  else if code = 305 then "Use Proxy"
  else if code = 307 then "Temporary Redirect"
  else if code = 308 then "Permanent Redirect"
  else if code = 400 then "Bad Request"
  else if code = 401 then "Unauthorized"
  else if code = 402 then "Payment Required"
  else if code = 403 then "Forbidden"
  else if code = 404 then "Not Found"
  else if code = 405 then "Method Not Allowed"
  else if code = 406 then "Not Acceptable"
  else if code = 407 then "Proxy Authentication Required"
  else if code = 408 then "Request Timeout"
  else if code = 409 then "Conflict"
  else if code = 410 then "Gone"
  else if code = 411 then "Length Required"
  else if code = 412 then "Precondition Failed"
  else if code = 413 then "Request Entity Too Large"
  else if code = 414 then "Request URI Too Long"
  else if code = 415 then "Unsupported Media Type"
  else if code = 416 then "Requested Range Not Satisfiable"
  else if code = 417 then "Expectation Failed"
  else if code = 418 then "I\x27m a teapot"
  else if code = 421 then "Misdirected Request"
  else if code = 422 then "Unprocessable Entity"
  else if code = 423 then "Locked"
  else if code = 424 then "Failed Dependency"
  else if code = 425 then "Too Early"
  else if code = 426 then "Upgrade Required"
  else if code = 428 then "Precondition Required"
  else if code = 429 then "Too Many Requests"
  else if code = 431 then "Request Header Fields Too Large"
  else if code = 451 then "Unavailable For Legal Reasons"
  else if code = 500 then "Internal Server Error"
  else if code = 501 then "Not Implemented"
  else if code = 502 then "Bad Gateway"
  else if code = 503 then "Service Unavailable"
  else if code = 504 then "Gateway Timeout"
  else if code = 505 then "HTTP Version Not Supported"
  else if code = 506 then "Variant Also Negotiates"
  else if code = 507 then "Insufficient Storage"
  else if code = 508 then "Loop Detected"
  else if code = 510 then "Not Extended"
  else if code = 511 then "Network Authentication Required"
  else ""

/-! ### The handler -/

/-- What the handler did with one request: an HTTP response (with the
headers actually transmitted, the header map as the handler left it, an
error body when `http.Error` produced one, and the ordered sleep/write
events), or a non-response: the delivery loop still running when the fuel
bound was hit, or a runtime panic. -/
structure HResp where
  status : Int
  sentHeaders : List (String × String)
  headersAfter : List (String × String)
  body : Option String
  events : List Ev
deriving DecidableEq

inductive Outcome
  | resp (r : HResp)
  | hung
  | panic
deriving DecidableEq

/-- The request handler (src/main.go:196-265, src/unnamed/part_000:219-290),
from the `parseParams` call on: the `http.Flusher`/`http.Hijacker`
capability checks that precede it always succeed on the plain HTTP/1.1
server this program runs.  The 400 body follows src/main.go:212
(src/unnamed/part_000:235-237 additionally appends a usage text).
`p.delay()` sleeps only when the resolved duration is positive; a `none`
from `httpError`/`writeHeader` is the `WriteHeader` panic for a status code
outside `[100, 999]`, aborting the handler; a response's recorded status is
the writer's final status (for an informational code the interim 1xx is
followed by the implicit 200 of the body write); `p.payload(chunkSize)`
allocates a buffer of `chunkSize` bytes and panics (`make` with negative
length) when `chunkSize < 0`; `fuel` bounds the delivery loop's
iterations.  In `code / 100 ≠ 2`, Go divides truncating toward zero while
`Int`'s `/` floors, but both quotients equal 2 exactly for
`code ∈ [200, 299]`, so the branch taken is identical.  -/
def handlerRun (fuel : Nat) (sessions : Sessions) (q : Query) : Sessions × Outcome :=
  match parseParams q with
  | .panic => (sessions, .panic)
  | .err e =>
    match httpError ("Error parsing query string: " ++ renderErr e) 400 Writer.start with
    | none => (sessions, .panic)
    | some (w, body) => (sessions, .resp ⟨w.status.getD 0, w.sent, w.headerMap, some body, []⟩)
  | .ok p0 =>
    let n := getSession sessions p0.id
    let sessions2 := (p0.id, n + 1) :: sessions
    let p : Params := { p0 with sessionCount := n }
    let d := delayDuration p
    let pre := if 0 < d then [Ev.sleep d] else []
    let code := statusCode p
    if code / 100 ≠ 2 then
      match httpError (statusText code) code Writer.start with
      | none => (sessions2, .panic)
      | some (w, body) => (sessions2, .resp ⟨w.status.getD 0, w.sent, w.headerMap, some body, pre⟩)
    else
      match writeHeader code Writer.start with
      | none => (sessions2, .panic)
      | some w0 =>
        let w := headerAdd "Content-Type"
          (if p.isBinary then "application/octet-stream" else "text/plain; charset=us-ascii") w0
        let w := headerAdd "Content-Length" (toString p.size) w
        let chunkSize := match p.bytesPerSec with | some b => b | none => p.size
        if chunkSize < 0 then (sessions2, .panic)
        else
          match deliverLoop fuel chunkSize p.size (cutOffSel p) with
          | none => (sessions2, .hung)
          | some evs => (sessions2, .resp ⟨code, w.sent, w.headerMap, none, pre ++ evs⟩)

/-- Status of an outcome (`0` for a non-response). -/
def outStatus : Outcome → Int
  | .resp r => r.status
  | _ => 0

/-- `k` sequential requests with the same query, threading the session
registry from one to the next. -/
def runSeq (fuel : Nat) (q : Query) : Nat → Sessions → List Outcome
  | 0, _ => []
  | k + 1, sessions =>
    let (s2, o) := handlerRun fuel sessions q
    o :: runSeq fuel q k s2

/-- The uniformity the C9 claim ascribes to the textual payload: a uniform
pick among the entries of `letterRunes` induces a uniform distribution on
the alphabet exactly when no character repeats in the list. -/
def uniformDraw : Prop := ∀ c ∈ letterRunes, letterRunes.count c = 1

/-! ## Theorems -/

/-- The chunk size of an iteration, under an active truncation allowance. -/
theorem stepSize_of_nonneg (d t c : Int) (hc : 0 ≤ c) :
    stepSize d t c = min (min t d) c := by
  simp only [stepSize, if_pos hc]
  split_ifs <;> omega

/-- The chunk size of an iteration, with truncation inactive. -/
theorem stepSize_of_neg (d t c : Int) (hc : c < 0) : stepSize d t c = min t d := by
  simp only [stepSize, if_neg (by omega : ¬ 0 ≤ c)]
  split_ifs <;> omega

/-- C2, formula part and scenario part (see the claim): the resolved status
is `codes[min(n, len-1)]` for a non-empty list, `200` otherwise; and with
`codes=200,500,200` four sequential requests sharing a session id resolve
`200, 500, 200, 200`. -/
theorem statusCode_clamps :
    (∀ (codes : List Int) (n : Nat),
      statusCode { codes := codes, sessionCount := n } =
        if codes = [] then 200 else codes.getD (min n (codes.length - 1)) 0) ∧
    (runSeq 2 { size := "1", id := "s", codes := "200,500,200" } 4 []).map outStatus
      = [200, 500, 200, 200] := by
  constructor
  · intro codes n
    by_cases h : codes = []
    · subst h; rfl
    · have hlen : 0 < codes.length := List.length_pos.mpr h
      have hlen2 : codes.length > 0 := hlen
      dsimp only [statusCode]
      rw [if_neg h, if_pos hlen2]
      split_ifs with h2
      · congr 1
        omega
      · congr 1
        omega
  · rfl

/-- C9, corrected part: `letterRunes` has 65 entries over 64 distinct
characters (`0` occurs twice, from the trailing `0` of `01234567890`), so
the alphabet is not the claimed 63 characters and a uniform pick among
entries is not uniform on characters. -/
theorem letterRunes_not_uniform :
    ¬ uniformDraw ∧ letterRunes.dedup.length ≠ 63 ∧
    letterRunes.count '0' = 2 ∧ letterRunes.count 'a' = 1 ∧
    letterRunes.length = 65 ∧ letterRunes.dedup.length = 64 := by
  refine ⟨fun h => ?_, by decide, by decide, by decide, by decide, by decide⟩
  have h0 := h '0' (by decide)
  exact absurd h0 (by decide)

/-- C9, membership part: every character of a textual payload, for every
random stream and length, lies in the alphabet `a-z A-Z 0-9 space newline`. -/
theorem randString_alphabet (r : Nat → Nat) (n : Nat) (c : Char)
    (hc : c ∈ randString r n) : inAlphabet c = true := by
  have hmem : c ∈ letterRunes := by
    simp only [randString, List.mem_map] at hc
    obtain ⟨i, _, rfl⟩ := hc
    have hlt : r i % letterRunes.length < letterRunes.length :=
      Nat.mod_lt _ (by decide)
    rw [List.getD_eq_getElem _ _ hlt]
    exact List.getElem_mem _
  exact (by decide : ∀ x ∈ letterRunes, inAlphabet x = true) c hmem

/-- Witness for `randString_alphabet` at a concrete stream and length. -/
theorem randString_alphabet_witness :
    'a' ∈ randString (fun _ => 0) 1 ∧ inAlphabet 'a' = true :=
  ⟨by decide, randString_alphabet (fun _ => 0) 1 'a' (by decide)⟩

/-- Behaviour of the delivery loop under an active truncation allowance
(`cutOff ≥ 0`), with a non-empty chunk buffer and enough fuel: it finishes,
writes `min toSend cutOff` bytes, and force-closes iff `cutOff < toSend`. -/
theorem deliverLoop_trunc (fuel : Nat) :
    ∀ dataLen toSend cutOff : Int, 1 ≤ dataLen → 0 < toSend → 0 ≤ cutOff →
      toSend ≤ (fuel : Int) →
      ∃ evs, deliverLoop fuel dataLen toSend cutOff = some evs ∧
        writtenBytes evs = min toSend cutOff ∧
        (closedEarly evs = true ↔ cutOff < toSend) := by
  induction fuel with
  | zero =>
    intro d t c _ ht _ hf
    exfalso
    omega
  | succ fuel ih =>
    intro d t c hd ht hc hf
    have hs := stepSize_of_nonneg d t c hc
    have hnc : nextCut c (stepSize d t c) = c - stepSize d t c := if_pos hc
    simp only [deliverLoop]
    rw [if_neg (by omega : ¬ t ≤ 0), hnc]
    by_cases h1 : t - stepSize d t c ≤ 0
    · rw [if_pos h1]
      refine ⟨_, rfl, ?_, ?_⟩
      · simp only [writtenBytes]
        omega
      · simp only [closedEarly]
        exact iff_of_false (by simp) (by omega)
    · rw [if_neg h1]
      by_cases h2 : c - stepSize d t c = 0
      · rw [if_pos h2]
        refine ⟨_, rfl, ?_, ?_⟩
        · simp only [writtenBytes]
          omega
        · simp only [closedEarly]
          exact iff_of_true (by trivial) (by omega)
      · rw [if_neg h2]
        obtain ⟨evs, heq, hw, hcl⟩ :=
          ih d (t - stepSize d t c) (c - stepSize d t c) hd (by omega) (by omega)
            (by push_cast at hf ⊢; omega)
        rw [heq]
        refine ⟨_, rfl, ?_, ?_⟩
        · simp only [writtenBytes]
          omega
        · simp only [closedEarly]
          rw [hcl]
          omega

/-- C1 amended: with a positive chunk size (`bps`, when present, positive),
positive payload size and a resolved allowance `cutOff ≥ 0`, the loop writes
exactly `min(size, cutOff)` and force-closes iff `cutOff < size`. -/
theorem deliverLoop_truncation (dataLen n c : Int)
    (hd : 1 ≤ dataLen) (hn : 0 < n) (hc : 0 ≤ c) : deliversMin dataLen n c := by
  obtain ⟨evs, h1, h2, h3⟩ :=
    deliverLoop_trunc (n.toNat + 1) dataLen n c hd hn hc (by omega)
  exact ⟨n.toNat + 1, evs, h1, h2, h3⟩

/-- Witness for `deliverLoop_truncation`: a 10-byte payload in 3-byte
chunks under allowance 4. -/
theorem deliverLoop_truncation_witness :
    (1 : Int) ≤ 3 ∧ (0 : Int) < 10 ∧ (0 : Int) ≤ 4 ∧ deliversMin 3 10 4 :=
  ⟨by norm_num, by norm_num, by norm_num,
    deliverLoop_truncation 3 10 4 (by norm_num) (by norm_num) (by norm_num)⟩

/-- With an empty chunk buffer (`bps=0`), a positive payload and a positive
allowance, every iteration of the source loop writes 0 bytes and changes
nothing, so the loop never terminates: no fuel suffices. -/
theorem deliverLoop_stuck (fuel : Nat) : deliverLoop fuel 0 10 5 = none := by
  induction fuel with
  | zero => rfl
  | succ fuel ih =>
    have h : stepSize 0 10 5 = 0 := rfl
    simp only [deliverLoop, h, nextCut]
    norm_num
    rw [ih]

/-- C1 counterexample: the descriptor parsed from `size=10&bps=0&cutOffs=5`
has positive payload size and allowance `5 ≥ 0`, yet the delivery loop never
completes, so it does not write `min(10, 5)` bytes and close. -/
theorem deliverLoop_truncation_cx :
    parseParams { size := "10", bps := "0", cutOffs := "5" } =
      .ok { size := 10, bytesPerSec := some 0, cutOffs := [5] } ∧
    (0 : Int) < 10 ∧ (0 : Int) ≤ 5 ∧ ¬ deliversMin 0 10 5 := by
  refine ⟨rfl, by norm_num, by norm_num, ?_⟩
  rintro ⟨fuel, evs, h, -⟩
  rw [deliverLoop_stuck fuel] at h
  exact Option.noConfusion h

/-- One chunk suffices when the payload fits the chunk buffer. -/
theorem chunksOf_one (n b : Nat) (h0 : 0 < n) (h : n ≤ b) : chunksOf n b = 1 := by
  unfold chunksOf
  exact Nat.div_eq_of_lt_le (by omega) (by omega)

/-- Each full chunk reduces the remaining chunk count by one. -/
theorem chunksOf_step (n b : Nat) (hb : 0 < b) (h : b < n) :
    chunksOf n b = chunksOf (n - b) b + 1 := by
  unfold chunksOf
  have he : n + b - 1 = (n - b + b - 1) + b := by omega
  rw [he, Nat.add_div_right _ hb]

/-- A chunk count is positive for a positive payload. -/
theorem chunksOf_pos (n b : Nat) (h0 : 0 < n) (hb : 0 < b) : 0 < chunksOf n b := by
  unfold chunksOf
  exact (Nat.one_le_div_iff hb).mpr (by omega)

/-- Behaviour of the delivery loop with truncation inactive (`cutOff < 0`):
it delivers the whole payload with no forced close, in `ceil(toSend/dataLen)`
chunk writes of at most `dataLen` bytes each, with one pacing sleep between
consecutive chunks. -/
theorem deliverLoop_paced (fuel : Nat) :
    ∀ dataLen toSend cutOff : Int, 1 ≤ dataLen → 0 < toSend → cutOff < 0 →
      toSend ≤ (fuel : Int) →
      ∃ evs, deliverLoop fuel dataLen toSend cutOff = some evs ∧
        writtenBytes evs = toSend ∧ closedEarly evs = false ∧
        writeCount evs = chunksOf toSend.toNat dataLen.toNat ∧
        sleepCount evs = writeCount evs - 1 ∧
        writesLe dataLen evs = true := by
  induction fuel with
  | zero =>
    intro d t c _ ht _ hf
    exfalso
    omega
  | succ fuel ih =>
    intro d t c hd ht hc hf
    have hs := stepSize_of_neg d t c hc
    have hnc : nextCut c (stepSize d t c) = c := if_neg (by omega)
    simp only [deliverLoop]
    rw [if_neg (by omega : ¬ t ≤ 0), hnc]
    by_cases h1 : t - stepSize d t c ≤ 0
    · rw [if_pos h1]
      have hst : stepSize d t c = t := by omega
      refine ⟨_, rfl, ?_, ?_, ?_, ?_, ?_⟩
      · simp only [writtenBytes]
        omega
      · simp only [closedEarly]
      · simp only [writeCount]
        rw [chunksOf_one _ _ (by omega) (by omega)]
      · simp only [sleepCount, writeCount]
      · simp only [writesLe, Bool.and_eq_true, decide_eq_true_eq]
        exact ⟨by omega, trivial⟩
    · rw [if_neg h1, if_neg (by omega : ¬ c = 0)]
      have hst : stepSize d t c = d := by omega
      obtain ⟨evs, heq, hw, hcl, hwc, hsl, hle⟩ :=
        ih d (t - stepSize d t c) c hd (by omega) hc (by push_cast at hf ⊢; omega)
      rw [heq]
      have hwcpos : 0 < writeCount evs := by
        rw [hwc]
        exact chunksOf_pos _ _ (by omega) (by omega)
      refine ⟨_, rfl, ?_, ?_, ?_, ?_, ?_⟩
      · simp only [writtenBytes]
        omega
      · simp only [closedEarly]
        exact hcl
      · simp only [writeCount]
        rw [hwc, hst]
        have := chunksOf_step t.toNat d.toNat (by omega) (by omega)
        rw [this]
        congr 2
        omega
      · simp only [sleepCount, writeCount]
        omega
      · simp only [writesLe, Bool.and_eq_true, decide_eq_true_eq]
        exact ⟨by omega, hle⟩

/-- C8: with `bps = b > 0`, payload `n > 0` and no truncation (allowance
`-1`), the loop performs exactly `ceil(n/b)` chunk writes of at most `b`
bytes each, `ceil(n/b) - 1` pacing sleeps, delivers all `n` bytes, and
never force-closes. -/
theorem deliverLoop_pacing (n b : Int) (hn : 0 < n) (hb : 0 < b) :
    ∃ evs, deliverLoop (n.toNat + 1) b n (-1) = some evs ∧
      writtenBytes evs = n ∧ closedEarly evs = false ∧
      writeCount evs = chunksOf n.toNat b.toNat ∧
      sleepCount evs = chunksOf n.toNat b.toNat - 1 ∧
      writesLe b evs = true := by
  obtain ⟨evs, h1, h2, h3, h4, h5, h6⟩ :=
    deliverLoop_paced (n.toNat + 1) b n (-1) (by omega) hn (by norm_num) (by omega)
  exact ⟨evs, h1, h2, h3, h4, by omega, h6⟩

/-- Witness for `deliverLoop_pacing` at the spec scenario `bps=100`,
`size=1000`: 10 chunks and 9 sleeps. -/
theorem deliverLoop_pacing_witness :
    (0 : Int) < 1000 ∧ (0 : Int) < 100 ∧
    chunksOf (1000 : Int).toNat (100 : Int).toNat = 10 ∧
    (∃ evs, deliverLoop ((1000 : Int).toNat + 1) 100 1000 (-1) = some evs ∧
      writtenBytes evs = 1000 ∧ closedEarly evs = false ∧
      writeCount evs = chunksOf (1000 : Int).toNat (100 : Int).toNat ∧
      sleepCount evs = chunksOf (1000 : Int).toNat (100 : Int).toNat - 1 ∧
      writesLe 100 evs = true) :=
  ⟨by norm_num, by norm_num, by decide,
    deliverLoop_pacing 1000 100 (by norm_num) (by norm_num)⟩

/-- `strconv.Atoi` yields a non-negative value whenever the input does not
begin with a minus sign. -/
theorem atoi_nonneg (s : String) (v : Int) (h : atoi s = some v)
    (hh : s.data.head? ≠ some '-') : 0 ≤ v := by
  cases hs : s.data with
  | nil =>
    simp only [atoi, hs] at h
    exact Option.noConfusion h
  | cons c cs =>
    simp only [atoi, hs] at h
    rw [hs] at hh
    have hc : ¬ c = '-' := by simpa using hh
    rw [if_neg hc] at h
    by_cases hp : c = '+'
    · rw [if_pos hp] at h
      cases hd : digitsVal cs with
      | none =>
        simp only [hd] at h
        exact Option.noConfusion h
      | some n =>
        simp only [hd] at h
        split at h
        · injection h with h2
          omega
        · exact Option.noConfusion h
    · rw [if_neg hp] at h
      cases hd : digitsVal (c :: cs) with
      | none =>
        simp only [hd] at h
        exact Option.noConfusion h
      | some n =>
        simp only [hd] at h
        split at h
        · injection h with h2
          omega
        · exact Option.noConfusion h

/-- A successful `size` parse is a successful `strconv.Atoi`. -/
theorem parseSizeField_atoi (s : String) (v : Int)
    (h : parseSizeField s = .ok v) : atoi s = some v := by
  unfold parseSizeField at h
  split at h
  · exact Except.noConfusion h
  · cases ha : atoi s with
    | none => rw [ha] at h; exact Except.noConfusion h
    | some w =>
      rw [ha] at h
      injection h with h2
      rw [h2]

/-- A successfully parsed descriptor's `size` comes from `parseSizeField`
on the query's `size` value. -/
theorem parseParams_ok_size (q : Query) (p : Params)
    (h : parseParams q = .ok p) : parseSizeField q.size = .ok p.size := by
  unfold parseParams at h
  cases hd : parseDelayField q.delay with
  | panic => rw [hd] at h; exact ParseOutcome.noConfusion h
  | err e => rw [hd] at h; exact ParseOutcome.noConfusion h
  | ok rd ds =>
    rw [hd] at h
    cases hsz : parseSizeField q.size with
    | error e => rw [hsz] at h; exact ParseOutcome.noConfusion h
    | ok size =>
      rw [hsz] at h
      cases hb : parseBpsField q.bps with
      | error e => rw [hb] at h; exact ParseOutcome.noConfusion h
      | ok bps =>
        rw [hb] at h
        cases hco : parseCutOffsField q.cutOffs with
        | error e => rw [hco] at h; exact ParseOutcome.noConfusion h
        | ok cos =>
          rw [hco] at h
          cases hcd : parseCodesField q.codes with
          | error e => rw [hcd] at h; exact ParseOutcome.noConfusion h
          | ok cds =>
            rw [hcd] at h
            injection h with h2
            rw [← h2]

/-- A successfully parsed descriptor always has `randomDelay = []`: the
range branch of the `delay` block panics before it can fill the slice. -/
theorem parseParams_ok_randomDelay_nil (q : Query) (p : Params)
    (h : parseParams q = .ok p) : p.randomDelay = [] := by
  unfold parseParams at h
  cases hd : parseDelayField q.delay with
  | panic => rw [hd] at h; exact ParseOutcome.noConfusion h
  | err e => rw [hd] at h; exact ParseOutcome.noConfusion h
  | ok rd ds =>
    have hrd : rd = [] := by
      unfold parseDelayField at hd
      split at hd
      · injection hd with h1 h2
        exact h1.symm
      · split at hd
        · split at hd
          · exact DelayRes.noConfusion hd
          · exact DelayRes.noConfusion hd
        · split at hd
          · exact DelayRes.noConfusion hd
          · injection hd with h1 h2
            exact h1.symm
    rw [hd] at h
    cases hsz : parseSizeField q.size with
    | error e => rw [hsz] at h; exact ParseOutcome.noConfusion h
    | ok size =>
      rw [hsz] at h
      cases hb : parseBpsField q.bps with
      | error e => rw [hb] at h; exact ParseOutcome.noConfusion h
      | ok bps =>
        rw [hb] at h
        cases hco : parseCutOffsField q.cutOffs with
        | error e => rw [hco] at h; exact ParseOutcome.noConfusion h
        | ok cos =>
          rw [hco] at h
          cases hcd : parseCodesField q.codes with
          | error e => rw [hcd] at h; exact ParseOutcome.noConfusion h
          | ok cds =>
            rw [hcd] at h
            injection h with h2
            rw [← h2, hrd]

/-- C7 counterexample: `size=-5` parses successfully into a descriptor
whose `size` is negative — the parser never checks the sign. -/
theorem parseParams_size_negative_cx :
    parseParams { size := "-5" } = .ok { size := -5 } ∧ (-5 : Int) < 0 :=
  ⟨rfl, by norm_num⟩

/-- C7 amended: a successfully parsed descriptor has `size ≥ 0` provided
the query's `size` value does not begin with a minus sign. -/
theorem parseParams_size_nonneg (q : Query) (p : Params)
    (h : parseParams q = .ok p) (hh : q.size.data.head? ≠ some '-') :
    0 ≤ p.size :=
  atoi_nonneg q.size p.size
    (parseSizeField_atoi q.size p.size (parseParams_ok_size q p h)) hh

/-- Witness for `parseParams_size_nonneg` at `size=7`. -/
theorem parseParams_size_nonneg_witness :
    parseParams { size := "7" } = .ok { size := 7 } ∧
    0 ≤ ({ size := 7 } : Params).size :=
  ⟨rfl, parseParams_size_nonneg { size := "7" } { size := 7 } rfl (by decide)⟩

/-- C5: every structured parse failure yields the 400 response with the
field-naming message and leaves the session registry untouched; but a query
whose `delay` splits into two parseable duration halves panics before the
`size` check, so a missing `size` does *not* always yield a 400 (the second
and third conjuncts exhibit this on `delay=1s-2s` with `size` absent). -/
theorem handler_parse_error :
    (∀ (fuel : Nat) (sessions : Sessions) (q : Query) (e : ParseErr),
      parseParams q = .err e →
      handlerRun fuel sessions q =
        (sessions, .resp ⟨400,
          [("Content-Type", "text/plain; charset=utf-8"),
           ("X-Content-Type-Options", "nosniff")],
          [("Content-Type", "text/plain; charset=utf-8"),
           ("X-Content-Type-Options", "nosniff")],
          some ("Error parsing query string: " ++ renderErr e ++ "\n"), []⟩)) ∧
    parseParams { delay := "1s-2s" } = .panic ∧
    handlerRun 1 [] { delay := "1s-2s" } = ([], .panic) := by
  refine ⟨?_, rfl, rfl⟩
  intro fuel sessions q e h
  unfold handlerRun
  rw [h]
  rfl

/-- Witness for the universally quantified part of `handler_parse_error`:
the query with no parameters at all fails with the missing-`size` error. -/
theorem handler_parse_error_witness :
    parseParams {} = .err .sizeMissing ∧
    handlerRun 1 [("k", 3)] {} =
      ([("k", 3)], .resp ⟨400,
        [("Content-Type", "text/plain; charset=utf-8"),
         ("X-Content-Type-Options", "nosniff")],
        [("Content-Type", "text/plain; charset=utf-8"),
         ("X-Content-Type-Options", "nosniff")],
        some ("Error parsing query string: " ++ renderErr .sizeMissing ++ "\n"), []⟩) :=
  ⟨rfl, handler_parse_error.1 1 [("k", 3)] {} .sizeMissing rfl⟩

/-- C3: on the success path the source calls `w.WriteHeader(code)` *before*
adding `Content-Type` and `Content-Length` to the header map
(src/main.go:224-231), so the transmitted headers (`sentHeaders`, the map's
snapshot at `WriteHeader`) are empty even though the map afterwards
(`headersAfter`) holds both headers — text and binary alike. -/
theorem handler_headers_after_writeHeader :
    handlerRun 6 [] { size := "5" } =
      ([("", 1)], .resp ⟨200, [],
        [("Content-Type", "text/plain; charset=us-ascii"), ("Content-Length", "5")],
        none, [Ev.write 5]⟩) ∧
    handlerRun 6 [] { size := "5", bin := true } =
      ([("", 1)], .resp ⟨200, [],
        [("Content-Type", "application/octet-stream"), ("Content-Length", "5")],
        none, [Ev.write 5]⟩) :=
  ⟨rfl, rfl⟩

/-- C4: a `delay` value that splits on `-` into two parseable durations
does not produce a range-mode descriptor — the store into the nil
`randomDelay` slice panics (src/main.go:116), even though both halves parse
fine. -/
theorem delay_range_panics :
    parseParams { delay := "1s-2s", size := "10" } = .panic ∧
    parseDuration "1s" = some 1000000000 ∧
    parseDuration "2s" = some 2000000000 ∧
    handlerRun 1 [] { delay := "1s-2s", size := "10" } = ([], .panic) :=
  ⟨rfl, rfl, rfl, rfl⟩

/-- C6: the two revisions disagree on `cutOffs=,,300`.  The
src/unnamed/part_000 parser maps empty tokens to the sentinel `-1`
(steps 0 and 1 untruncated, step 2 and beyond cut at 300, as the claim
says), and three sequential requests at `size=1000` deliver 1000, 1000,
then 300 bytes with a forced close; but the src/main.go parser *skips*
empty tokens, yielding `[300]`, which truncates already the first request
at step 0. -/
theorem cutOffs_empty_tokens :
    parseCutOffsField ",,300" = .ok [-1, -1, 300] ∧
    cutOffsFieldMain ",,300" = .ok [300] ∧
    cutOffSel { cutOffs := [-1, -1, 300], sessionCount := 0 } = -1 ∧
    cutOffSel { cutOffs := [-1, -1, 300], sessionCount := 1 } = -1 ∧
    cutOffSel { cutOffs := [-1, -1, 300], sessionCount := 2 } = 300 ∧
    cutOffSel { cutOffs := [-1, -1, 300], sessionCount := 7 } = 300 ∧
    cutOffSel { cutOffs := [300], sessionCount := 0 } = 300 ∧
    (runSeq 1001 { size := "1000", id := "t", cutOffs := ",,300" } 3 []).map
      (fun o => match o with
        | .resp r => (writtenBytes r.events, closedEarly r.events)
        | _ => (0, true)) =
      [(1000, false), (1000, false), (300, true)] :=
  ⟨rfl, rfl, rfl, rfl, rfl, rfl, rfl, by decide⟩

end TestServer
